import Mathlib

/-!
Shallow embedding of the bourse-tracker repository (SinaRoofi/bourse-tracker)
for checking its natural-language specification.

The embedding covers:
- the dedup ledger kept in a GitHub gist (`src/utils/gist_alert_manager.py`):
  the gist document is a JSON object mapping a Jalali day key to the list of
  `(symbol, alert_type)` records already alerted that day; modelled as an
  association list with python-dict semantics (unique keys, insertion order,
  assignment updates in place or appends);
- the two-writer commit protocol of `_save_to_gist` / `mark_multiple_as_sent`
  as a small-step machine over a shared store with a version counter;
- the dedup check `should_send_alert` and its local cache;
- the rule engine of `src/utils/data_processor.py` over a pandas-like table
  (rows of named cells that are numbers, NaN, or strings), with `KeyError`
  modelled by `Except`;
- the telegram send retry logic of `src/utils/alerts.py`;
- the dispatch/commit bookkeeping of `send_alerts_for_filters_async` in
  `src/main.py`;
- the daily-summary job of `src/daily_summary_main.py`.
-/

namespace BourseTracker

/-! Lexicographic string order by Unicode code point, as python compares the
day-key strings in `sorted(data.keys(), reverse=True)`.  (Lean's built-in
`String` order is not kernel-reducible, so the comparison is spelled out on
the character lists.) -/

/-- Lexicographic `≤` on character lists, by code point. -/
def charListLe : List Char → List Char → Bool
  | [], _ => true
  | _ :: _, [] => false
  | a :: as, b :: bs => if a = b then charListLe as bs else decide (a.toNat < b.toNat)

/-- Python's `s1 <= s2` on strings: lexicographic by code point. -/
def strLe (a b : String) : Bool := charListLe a.data b.data

theorem char_eq_of_toNat_eq {a b : Char} (h : a.toNat = b.toNat) : a = b :=
  Char.eq_of_val_eq (UInt32.ext h)

theorem charListLe_total : ∀ a b : List Char, charListLe a b = true ∨ charListLe b a = true
  | [], _ => Or.inl rfl
  | _ :: _, [] => Or.inr rfl
  | x :: xs, y :: ys => by
      by_cases hxy : x = y
      · subst hxy
        simpa [charListLe] using charListLe_total xs ys
      · have hyx : ¬ y = x := fun h => hxy h.symm
        have hne : x.toNat ≠ y.toNat := fun h => hxy (char_eq_of_toNat_eq h)
        rcases Nat.lt_or_ge x.toNat y.toNat with h | h
        · exact Or.inl (by simp [charListLe, hxy, h])
        · have h2 : y.toNat < x.toNat := lt_of_le_of_ne h (fun h3 => hne h3.symm)
          exact Or.inr (by simp [charListLe, hyx, h2])

theorem charListLe_trans : ∀ {a b c : List Char},
    charListLe a b = true → charListLe b c = true → charListLe a c = true
  | [], _, _, _, _ => rfl
  | _ :: _, [], _, h1, _ => by simp [charListLe] at h1
  | _ :: _, _ :: _, [], _, h2 => by simp [charListLe] at h2
  | x :: xs, y :: ys, z :: zs, h1, h2 => by
      by_cases hxy : x = y
      · subst hxy
        by_cases hxz : x = z
        · subst hxz
          simp only [charListLe, if_pos rfl] at h1 h2 ⊢
          exact charListLe_trans h1 h2
        · simpa [charListLe, hxz] using (by simpa [charListLe, hxz] using h2)
      · by_cases hyz : y = z
        · subst hyz
          simpa [charListLe, hxy] using (by simpa [charListLe, hxy] using h1)
        · have hlt1 : x.toNat < y.toNat := by simpa [charListLe, hxy] using h1
          have hlt2 : y.toNat < z.toNat := by simpa [charListLe, hyz] using h2
          have hxz : ¬ x = z := by
            intro h
            subst h
            exact absurd (Nat.lt_trans hlt1 hlt2) (Nat.lt_irrefl _)
          simp [charListLe, hxz, Nat.lt_trans hlt1 hlt2]

theorem charListLe_antisymm : ∀ {a b : List Char},
    charListLe a b = true → charListLe b a = true → a = b
  | [], [], _, _ => rfl
  | _ :: _, [], h1, _ => by simp [charListLe] at h1
  | [], _ :: _, _, h2 => by simp [charListLe] at h2
  | x :: xs, y :: ys, h1, h2 => by
      by_cases hxy : x = y
      · subst hxy
        simp only [charListLe, if_pos rfl] at h1 h2
        exact congrArg _ (charListLe_antisymm h1 h2)
      · have hyx : ¬ y = x := fun h => hxy h.symm
        have hlt1 : x.toNat < y.toNat := by simpa [charListLe, hxy] using h1
        have hlt2 : y.toNat < x.toNat := by simpa [charListLe, hyx] using h2
        exact absurd (Nat.lt_trans hlt1 hlt2) (Nat.lt_irrefl _)

theorem strLe_total (a b : String) : strLe a b = true ∨ strLe b a = true :=
  charListLe_total a.data b.data

theorem strLe_trans {a b c : String} (h1 : strLe a b = true) (h2 : strLe b c = true) :
    strLe a c = true :=
  charListLe_trans h1 h2

theorem strLe_antisymm {a b : String} (h1 : strLe a b = true) (h2 : strLe b a = true) :
    a = b := by
  cases a; cases b
  exact congrArg _ (charListLe_antisymm h1 h2)

/-! Generic insertion sort with a boolean comparison, modelling python's
`sorted`.  Only the properties used later are proved: the result is a
permutation of the input and is pairwise ordered when the comparison is total
and transitive. -/

/-- Insert `x` in front of the first element `y` with `le x y`. -/
def insertB {α : Type} (le : α → α → Bool) (x : α) : List α → List α
  | [] => [x]
  | y :: ys => if le x y then x :: y :: ys else y :: insertB le x ys

/-- Insertion sort by the boolean comparison `le`. -/
def sortB {α : Type} (le : α → α → Bool) : List α → List α
  | [] => []
  | x :: xs => insertB le x (sortB le xs)

theorem insertB_perm {α : Type} (le : α → α → Bool) (x : α) (l : List α) :
    List.Perm (insertB le x l) (x :: l) := by
  induction l with
  | nil => exact List.Perm.refl _
  | cons y ys ih =>
      by_cases h : le x y
      · simp [insertB, h]
      · simp only [insertB, h, if_neg, Bool.false_eq_true, not_false_iff]
        exact (List.Perm.cons y ih).trans (List.Perm.swap x y ys)

theorem sortB_perm {α : Type} (le : α → α → Bool) (l : List α) :
    List.Perm (sortB le l) l := by
  induction l with
  | nil => exact List.Perm.refl _
  | cons x xs ih => exact (insertB_perm le x (sortB le xs)).trans (List.Perm.cons x ih)

theorem mem_sortB {α : Type} {le : α → α → Bool} {a : α} {l : List α} :
    a ∈ sortB le l ↔ a ∈ l :=
  (sortB_perm le l).mem_iff

theorem pairwise_insertB {α : Type} {le : α → α → Bool}
    (htot : ∀ a b, le a b = true ∨ le b a = true)
    (htrans : ∀ {a b c}, le a b = true → le b c = true → le a c = true)
    {x : α} {l : List α} (hl : l.Pairwise (fun a b => le a b = true)) :
    (insertB le x l).Pairwise (fun a b => le a b = true) := by
  induction l with
  | nil => simp [insertB]
  | cons y ys ih =>
      rcases List.pairwise_cons.mp hl with ⟨hy, hys⟩
      by_cases h : le x y
      · simp only [insertB, h, if_pos]
        refine List.pairwise_cons.mpr ⟨?_, hl⟩
        intro b hb
        rcases List.mem_cons.mp hb with rfl | hb
        · exact h
        · exact htrans h (hy _ hb)
      · have hyx : le y x = true := by
          rcases htot x y with h1 | h1
          · exact absurd h1 h
          · exact h1
        simp only [insertB, h, if_neg, Bool.false_eq_true, not_false_iff]
        refine List.pairwise_cons.mpr ⟨?_, ih hys⟩
        intro b hb
        have hb2 : b = x ∨ b ∈ ys := by
          have := (insertB_perm le x ys).mem_iff.mp hb
          simpa using this
        rcases hb2 with rfl | hb2
        · exact hyx
        · exact hy _ hb2

theorem pairwise_sortB {α : Type} {le : α → α → Bool}
    (htot : ∀ a b, le a b = true ∨ le b a = true)
    (htrans : ∀ {a b c}, le a b = true → le b c = true → le a c = true)
    (l : List α) : (sortB le l).Pairwise (fun a b => le a b = true) := by
  induction l with
  | nil => simp [sortB]
  | cons x xs ih => exact pairwise_insertB htot htrans ih

/-! The gist ledger document and its python-dict operations
(`src/utils/gist_alert_manager.py`). -/

/-- One ledger record: a `(symbol, alert_type)` pair, as stored in the gist
document (`{"symbol": ..., "alert_type": ...}`). -/
abbrev Entry := String × String

/-- The gist document `alert_cache.json`: a JSON object from day key to that
day's list of entries.  Python dicts have unique keys and preserve insertion
order, so the model is an association list. -/
abbrev GistDoc := List (String × List Entry)

/-- Lookup `data[k]` with default `[]` (the code only reads day partitions via
`data.get(day, [])` or after ensuring the key exists). -/
def getD (d : GistDoc) (k : String) : List Entry :=
  match d.find? (fun p => p.1 == k) with
  | some p => p.2
  | none => []

/-- Membership test `k in data` on a python dict. -/
def hasKey (d : GistDoc) (k : String) : Bool :=
  (d.find? (fun p => p.1 == k)).isSome

/-- Assignment `data[k] = v` on a python dict: replaces the value in place if
the key exists, otherwise appends the new key. -/
def setKey : GistDoc → String → List Entry → GistDoc
  | [], k, v => [(k, v)]
  | (k', v') :: rest, k, v =>
      if k' == k then (k, v) :: rest else (k', v') :: setKey rest k v

/-- Python `data.update(other)`: assign every key of `other` into `data`, in
order. -/
def dictUpdate (d other : GistDoc) : GistDoc :=
  other.foldl (fun acc p => setKey acc p.1 p.2) d

/-- The list of keys of the document, in order. -/
def keysOf (d : GistDoc) : List String := d.map (·.1)

/-- Day keys sorted descending, as `sorted(data.keys(), reverse=True)` does
(day keys are zero-padded `YYYY-MM-DD` strings, so python's lexicographic
string order is the chronological order). -/
def sortKeysDesc (ks : List String) : List String :=
  sortB (fun a b => strLe b a) ks

/-- Retention step of `_save_to_gist` (lines 137-139): keep only the three
most recent day partitions, i.e. `sorted_days = sorted(data.keys(),
reverse=True)[:3]` followed by `{day: data[day] for day in sorted_days}`. -/
def pruneKeep3 (d : GistDoc) : GistDoc :=
  ((sortKeysDesc (keysOf d)).take 3).map (fun k => (k, getD d k))

theorem getD_setKey_self (d : GistDoc) (k : String) (v : List Entry) :
    getD (setKey d k v) k = v := by
  induction d with
  | nil => simp [setKey, getD]
  | cons p rest ih =>
      obtain ⟨k', v'⟩ := p
      by_cases h : k' = k
      · simp [setKey, getD, h]
      · have hb : (k' == k) = false := by simp [h]
        simp only [setKey, hb, Bool.false_eq_true, if_neg, not_false_iff]
        simpa [getD, List.find?, hb] using ih

theorem keysOf_setKey (d : GistDoc) (k : String) (v : List Entry) :
    keysOf (setKey d k v) = if hasKey d k then keysOf d else keysOf d ++ [k] := by
  induction d with
  | nil => simp [setKey, keysOf, hasKey]
  | cons p rest ih =>
      obtain ⟨k', v'⟩ := p
      by_cases h : k' = k
      · simp [setKey, keysOf, hasKey, List.find?, h]
      · have hb : (k' == k) = false := by simp [h]
        simp only [setKey, hb, Bool.false_eq_true, if_neg, not_false_iff, keysOf,
          List.map_cons, hasKey, List.find?, hb]
        simp only [keysOf] at ih
        simp only [hasKey] at ih
        rw [ih]
        by_cases h2 : (rest.find? (fun p => p.1 == k)).isSome
        · simp [h2]
        · simp [h2]

/-! The commit protocol of `GistAlertManager._save_to_gist` /
`mark_multiple_as_sent` (lines 96-245), run by two concurrent writers (two
overlapping process invocations) against the shared gist.  Each writer's code
between two network operations is deterministic, so a writer is a small state
machine whose steps are its network operations; an interleaving is a schedule
of writer ids. -/

/-- Control point of one writer inside `mark_multiple_as_sent`. -/
inductive WPhase where
  /-- About to run `mark_multiple_as_sent`: load the gist (line 223) and build
  the merged document up to the first `_save_to_gist` attempt. -/
  | start
  /-- Start of save attempt `k > 0` (lines 116-135): re-read the gist and merge
  the still-missing entries before writing again. -/
  | reload (attempt : ℕ)
  /-- About to PATCH the gist (attempt `k`, lines 141-157). -/
  | write (attempt : ℕ)
  /-- Returned from `mark_multiple_as_sent` with this success value. -/
  | stopped (success : Bool)
deriving DecidableEq, Repr

/-- One writer: its input entries, control point, local `data` document and the
store version it last read (used only by the `conditional` store semantics). -/
structure Writer where
  alerts : List Entry
  phase : WPhase
  data : GistDoc
  seenVer : ℕ
deriving DecidableEq, Repr

/-- The shared gist plus both writers.  `ver` counts successful writes. -/
structure LedgerState where
  store : GistDoc
  ver : ℕ
  wA : Writer
  wB : Writer
deriving DecidableEq, Repr

/-- Conflict merge of `_save_to_gist` lines 119-135: re-read document `store`,
and either extend its day partition with the entries of `data` not already
present (no duplicates), or `data.update(current_data)`. -/
def mergeReload (today : String) (store data : GistDoc) : GistDoc :=
  if hasKey store today && hasKey data today then
    let existing := getD store today
    let newAlerts := (getD data today).filter (fun a => !(existing.contains a))
    setKey store today (existing ++ newAlerts)
  else
    dictUpdate data store

/-- First half of `mark_multiple_as_sent` (lines 220-243): load the current
gist fresh (`use_cache=False`), ensure today's partition exists, drop entries
already present, and either return `True` immediately (nothing new) or proceed
to the first save attempt with the extended document. -/
def markStart (today : String) (store : GistDoc) (ver : ℕ) (w : Writer) : Writer :=
  if w.alerts.isEmpty then { w with phase := .stopped true }
  else
    let data := store
    let data := if hasKey data today then data else setKey data today []
    let existing := getD data today
    let newAlerts := w.alerts.filter (fun a => !(existing.contains a))
    if newAlerts.isEmpty then { w with phase := .stopped true }
    else
      { w with phase := .write 0, data := setKey data today (existing ++ newAlerts),
               seenVer := ver }

/-- One network step of a writer.  Returns the new writer state and, when a
PATCH succeeds, the document written (the pruned `new_data` of lines 138-144).

`conditional := false` is the store the code actually talks to: a GitHub gist
PATCH carries no revision precondition, so the store always accepts the write
and replaces the whole document (last writer wins); the 409 branch of the code
is never taken on a mere concurrent edit.  `conditional := true` is the
versioned `put(key, content, expected_revision) -> success | conflict` store
of spec section 6: a write based on a stale read (`seenVer ≠ ver`) is rejected
with 409, which drives the code's retry/merge branch.  `max_retries` is 3. -/
def stepWriter (conditional : Bool) (today : String) (store : GistDoc) (ver : ℕ)
    (w : Writer) : Writer × Option GistDoc :=
  match w.phase with
  | .start => (markStart today store ver w, none)
  | .reload k =>
      ({ w with phase := .write k, data := mergeReload today store w.data,
                seenVer := ver }, none)
  | .write k =>
      if conditional && w.seenVer != ver then
        if k + 1 < 3 then ({ w with phase := .reload (k + 1) }, none)
        else ({ w with phase := .stopped false }, none)
      else
        ({ w with phase := .stopped true }, some (pruneKeep3 w.data))
  | .stopped _ => (w, none)

/-- Run the scheduled writer (`true` = A, `false` = B) for one step. -/
def stepLedger (conditional : Bool) (today : String) (s : LedgerState) (i : Bool) :
    LedgerState :=
  if i then
    let r := stepWriter conditional today s.store s.ver s.wA
    { s with wA := r.1, store := r.2.getD s.store,
             ver := if r.2.isSome then s.ver + 1 else s.ver }
  else
    let r := stepWriter conditional today s.store s.ver s.wB
    { s with wB := r.1, store := r.2.getD s.store,
             ver := if r.2.isSome then s.ver + 1 else s.ver }

/-- Run a whole interleaving. -/
def runLedger (conditional : Bool) (today : String) (s : LedgerState)
    (sched : List Bool) : LedgerState :=
  sched.foldl (stepLedger conditional today) s

/-- Both writers at the top of `mark_multiple_as_sent`, empty store. -/
def initLedger (alertsA alertsB : List Entry) : LedgerState :=
  ⟨[], 0, ⟨alertsA, .start, [], 0⟩, ⟨alertsB, .start, [], 0⟩⟩

/-! The dedup check `should_send_alert` (lines 182-208) and the manager's
local cache, for a single manager within one run. -/

/-- Local state of one `GistAlertManager`: the current remote gist content and
the local cache (`self._cache`, `None` before the first load). -/
structure Manager where
  remote : GistDoc
  cache : Option GistDoc
deriving DecidableEq, Repr

/-- The test `alert["symbol"] == symbol and alert["alert_type"] == alert_type`
of lines 205-207. -/
def alertMatches (sym typ : String) (a : Entry) : Bool :=
  a.1 == sym && a.2 == typ

/-- `should_send_alert(symbol, alert_type)` (lines 182-208).  When the cache
is `None` (first call), the gist is fetched synchronously: `loadRes = some d`
models HTTP 200 with content `d`; `loadRes = none` models a non-200 status or
an exception, after which the code sets `self._cache = {}`.  When the cache is
present it is only read.  Returns `True` when no entry of today's partition
matches the pair. -/
def shouldSendAlert (loadRes : Option GistDoc) (today sym typ : String)
    (m : Manager) : Bool × Manager :=
  let cache :=
    match m.cache with
    | some c => c
    | none => loadRes.getD []
  (!((getD cache today).any (alertMatches sym typ)), { m with cache := some cache })

/-- `mark_multiple_as_sent(alerts)` (lines 210-245) for a single writer whose
`_save_to_gist` first attempt returns `saveOk` (no concurrent writer, so no
conflict branch): load the remote content fresh, extend today's partition with
the entries not already present, update the local cache (lines 240-241), and
on a successful save store the pruned document and cache it (lines 138-161). -/
def markMultipleAsSent (saveOk : Bool) (today : String) (alerts : List Entry)
    (m : Manager) : Bool × Manager :=
  if alerts.isEmpty then (true, m)
  else
    let data := m.remote
    let data := if hasKey data today then data else setKey data today []
    let existing := getD data today
    let newAlerts := alerts.filter (fun a => !(existing.contains a))
    if newAlerts.isEmpty then (true, m)
    else
      let data := setKey data today (existing ++ newAlerts)
      if saveOk then (true, ⟨pruneKeep3 data, some (pruneKeep3 data)⟩)
      else (false, { m with cache := some data })

/-! The rule engine of `src/utils/data_processor.py`.  A pandas dataframe is a
table: a list of column names plus rows of named cells.  A cell is a number, a
NaN (missing / failed numeric coercion), or a string.  Accessing a column that
is not in `columns` raises `KeyError`, modelled with `Except`; comparisons
involving NaN are false, and arithmetic on NaN yields NaN, as in pandas. -/

/-- One cell of a dataframe row. -/
inductive Val where
  | num (q : ℚ)
  | nan
  | str (s : String)
deriving DecidableEq, Repr

/-- Pandas `cell > q`: false unless the cell is a number. -/
def Val.gtQ : Val → ℚ → Bool
  | num v, x => decide (x < v)
  | _, _ => false

/-- Pandas `cell >= q`. -/
def Val.geQ : Val → ℚ → Bool
  | num v, x => decide (x ≤ v)
  | _, _ => false

/-- Pandas `cell < q`. -/
def Val.ltQ : Val → ℚ → Bool
  | num v, x => decide (v < x)
  | _, _ => false

/-- Pandas `cell == q`: false for NaN. -/
def Val.eqQ : Val → ℚ → Bool
  | num v, x => decide (v = x)
  | _, _ => false

/-- Pandas `cell_a > cell_b` on two columns. -/
def Val.gtV : Val → Val → Bool
  | num a, num b => decide (b < a)
  | _, _ => false

/-- Pandas `cell_a == cell_b`: numbers compare numerically, strings by
equality, NaN equals nothing. -/
def Val.eqV : Val → Val → Bool
  | num a, num b => decide (a = b)
  | str a, str b => a == b
  | _, _ => false

/-- Scalar times cell, NaN-propagating. -/
def Val.mulQ (c : ℚ) : Val → Val
  | num v => num (c * v)
  | _ => nan

/-- Cell subtraction, NaN-propagating. -/
def Val.subV : Val → Val → Val
  | num a, num b => num (a - b)
  | _, _ => nan

/-- One dataframe row: named cells. -/
abbrev Row := List (String × Val)

/-- Read a cell of a row; a value absent from the row is NaN (column presence
is table-level in pandas, a present column always yields a cell). -/
def rget (r : Row) (c : String) : Val :=
  match r.find? (fun p => p.1 == c) with
  | some p => p.2
  | none => .nan

/-- Assignment `row[c] = v`. -/
def rowSet : Row → String → Val → Row
  | [], c, v => [(c, v)]
  | (c', v') :: rest, c, v =>
      if c' == c then (c, v) :: rest else (c', v') :: rowSet rest c v

/-- A dataframe: its column names and its rows. -/
structure Table where
  cols : List String
  rows : List Row
deriving DecidableEq, Repr

/-- `pd.DataFrame()`: the empty frame several filters return. -/
def Table.empty : Table := ⟨[], []⟩

/-- `df[c]` raises `KeyError` when `c` is not a column. -/
def colCheck (t : Table) (c : String) : Except String Unit :=
  if t.cols.contains c then .ok () else .error ("KeyError: " ++ c)

/-- `config[k]` on a python threshold dict raises `KeyError` when absent. -/
def cfgGet (cfg : List (String × ℚ)) (k : String) : Except String ℚ :=
  match cfg.find? (fun p => p.1 == k) with
  | some p => .ok p.2
  | none => .error ("KeyError: " ++ k)

/-- Sort rows descending by the numeric column `c`
(`df.sort_values(c, ascending=False)`); NaN keys go last. -/
def rowDescLe (c : String) (a b : Row) : Bool :=
  match rget a c, rget b c with
  | .num x, .num y => decide (y ≤ x)
  | .num _, _ => true
  | _, .num _ => false
  | _, _ => true

/-- `df.sort_values(c, ascending=False)`. -/
def sortRowsDesc (c : String) (rows : List Row) : List Row :=
  sortB (rowDescLe c) rows

/-! Threshold configuration, `src/config.py` lines 87-151.  The boolean
entries (`godrat_greater_than_5day`, `sarane_kharid_greater_than_forosh`,
`price_at_ceiling`) are documentation flags the filters never read and are
omitted from the numeric dicts. -/

/-- `STRONG_BUYING_CONFIG` (config.py lines 87-92). -/
def STRONG_BUYING_CONFIG : List (String × ℚ) :=
  [("min_value_to_avg_monthly", 2), ("min_sarane_kharid", 50), ("min_godrat_kharid", 1)]

/-- `SARANE_CROSS_CONFIG` (config.py lines 95-98).  Note: it has no
`min_sarane_kharid` entry, although `filter_2_sarane_kharid_cross` reads
`config["min_sarane_kharid"]` (data_processor.py line 209). -/
def SARANE_CROSS_CONFIG : List (String × ℚ) :=
  [("min_value_to_avg_monthly", 1 / 2)]

/-- `WATCHLIST_SYMBOLS` (config.py lines 101-106). -/
def WATCHLIST_SYMBOLS : List (String × ℚ) :=
  [("فولاد", 2.99), ("خودرو", 2.99), ("شپنا", 2.99), ("فملی", 2.99)]

/-- `POL_HAGIGI_FILTER_CONFIG` (config.py lines 112-116). -/
def POL_HAGIGI_FILTER_CONFIG : List (String × ℚ) :=
  [("min_pol_to_value_ratio", 1 / 2), ("min_sarane_kharid", 50), ("min_godrat_kharid", 3 / 2)]

/-- `SWING_TRADE_CONFIG` (config.py lines 131-137). -/
def SWING_TRADE_CONFIG : List (String × ℚ) :=
  [("min_allowed_price", -3), ("max_last_change_percent", -2), ("min_godrat_kharid", 2),
   ("min_sarane_kharid", 50), ("min_value_to_avg_monthly", 1)]

/-- `HEAVY_BUY_QUEUE_CONFIG` (config.py lines 147-151). -/
def HEAVY_BUY_QUEUE_CONFIG : List (String × ℚ) :=
  [("min_buy_order", 70), ("min_buy_queue_value", 10)]

/-- `TICK_FILTER_CONFIG` (config.py lines 119-123). -/
def TICK_FILTER_CONFIG : List (String × ℚ) :=
  [("first_to_low_ratio", 0.98), ("last_to_first_ratio", 0.98), ("tick_diff_percent", 2)]

/-- `SUSPICIOUS_VOLUME_CONFIG` (config.py lines 126-128). -/
def SUSPICIOUS_VOLUME_CONFIG : List (String × ℚ) :=
  [("min_value_to_avg_ratio", 2)]

/-- `FIRST_HOUR_CONFIG` (config.py lines 140-144). -/
def FIRST_HOUR_CONFIG : List (String × ℚ) :=
  [("min_value_to_avg_ratio", 1), ("start_hour", 9), ("end_hour", 10)]

/-- `config.get(k, default)`: total lookup with default. -/
def cfgGetD (cfg : List (String × ℚ)) (k : String) (dflt : ℚ) : ℚ :=
  match cfg.find? (fun p => p.1 == k) with
  | some p => p.2
  | none => dflt

/-- The safe-division lambda used for `pol_hagigi_to_avg_monthly_value`
(data_processor.py lines 106-113) and for `pol_hagigi_to_value` (lines
495-502): `a / b if b != 0 and pd.notna(b) else 0`.  A zero or missing
denominator yields 0; a missing numerator propagates as NaN.  (Both operand
columns are numeric after `pd.to_numeric(..., errors="coerce")`, so the
string case does not arise.) -/
def safeDivVal : Val → Val → Val
  | p, .num b =>
      if b = 0 then .num 0
      else
        match p with
        | .num a => .num (a / b)
        | _ => .nan
  | _, _ => .num 0

/-- Division of the raw cell by 10 billion (data_processor.py lines 92-100),
applied to `pol_hagigi` and `avg_monthly_value` among others before the ratio
is computed; NaN stays NaN. -/
def scaleE10 : Val → Val
  | .num q => .num (q / 10000000000)
  | _ => .nan

/-- The `pol_hagigi_to_avg_monthly_value` cell produced by
`_clean_and_prepare_api1` for a row whose coerced raw `pol_hagigi` and
`avg_monthly_value` cells are given: both are scaled by 1e10 (lines 92-100),
then the safe-division lambda runs (lines 104-113). -/
def cleanRatio (polRaw avgRaw : Val) : Val :=
  safeDivVal (scaleE10 polRaw) (scaleE10 avgRaw)

/-- `filter_1_strong_buying_power` (data_processor.py lines 177-194): the
row predicate of lines 185-190, with the thresholds of
`STRONG_BUYING_CONFIG` inlined where the code reads them. -/
def filter1Pred (mva msk mgk : ℚ) (r : Row) : Bool :=
  (rget r "value_to_avg_monthly_value").gtQ mva &&
  (rget r "sarane_kharid").gtQ msk &&
  (rget r "godrat_kharid").gtQ mgk &&
  (rget r "godrat_kharid").gtV ((rget r "5_day_godrat_kharid").mulQ 2)

/-- `filter_1_strong_buying_power` (lines 177-194). -/
def filter1 (t : Table) : Except String Table :=
  if t.rows.isEmpty then .ok t
  else do
    _ ← colCheck t "value_to_avg_monthly_value"
    let mva ← cfgGet STRONG_BUYING_CONFIG "min_value_to_avg_monthly"
    _ ← colCheck t "sarane_kharid"
    let msk ← cfgGet STRONG_BUYING_CONFIG "min_sarane_kharid"
    _ ← colCheck t "godrat_kharid"
    let mgk ← cfgGet STRONG_BUYING_CONFIG "min_godrat_kharid"
    _ ← colCheck t "5_day_godrat_kharid"
    pure ⟨t.cols, sortRowsDesc "sarane_kharid" (t.rows.filter (filter1Pred mva msk mgk))⟩

/-- `filter_2_sarane_kharid_cross` (lines 199-214).  The last conjunct reads
`config["min_sarane_kharid"]`, a key `SARANE_CROSS_CONFIG` does not have, so
on any nonempty input this filter raises `KeyError`. -/
def filter2 (t : Table) : Except String Table :=
  if t.rows.isEmpty then .ok t
  else do
    _ ← colCheck t "sarane_kharid"
    _ ← colCheck t "sarane_forosh"
    _ ← colCheck t "value_to_avg_monthly_value"
    let mva ← cfgGet SARANE_CROSS_CONFIG "min_value_to_avg_monthly"
    let msk ← cfgGet SARANE_CROSS_CONFIG "min_sarane_kharid"
    let flt := t.rows.filter (fun r =>
      (rget r "sarane_kharid").gtV (rget r "sarane_forosh") &&
      (rget r "value_to_avg_monthly_value").geQ mva &&
      (rget r "sarane_kharid").geQ msk)
    pure ⟨t.cols, sortRowsDesc "sarane_kharid" flt⟩

/-- `filter_3_watchlist_symbols` (lines 219-253): for each watchlist symbol,
take its first row; if its change percent exceeds the symbol's threshold, keep
the row extended with a `threshold` column. -/
def filter3 (t : Table) (watchlist : List (String × ℚ)) : Except String Table :=
  if t.rows.isEmpty then .ok t
  else if watchlist.isEmpty then .ok Table.empty
  else do
    let picked ← watchlist.foldlM (fun (acc : List Row) (p : String × ℚ) => do
      _ ← colCheck t "symbol"
      match t.rows.find? (fun r => (rget r "symbol").eqV (.str p.1)) with
      | none => pure acc
      | some r => do
          _ ← colCheck t "last_price_change_percent"
          if (rget r "last_price_change_percent").gtQ p.2 then
            pure (acc ++ [r ++ [("threshold", .num p.2)]])
          else
            pure acc) []
    if picked.isEmpty then pure Table.empty
    else pure ⟨t.cols ++ ["threshold"], sortRowsDesc "last_price_change_percent" picked⟩

/-- `filter_4_heavy_buy_queue_at_ceiling` (lines 258-260): disabled, always
returns the empty frame. -/
def filter4 (_ : Table) : Except String Table := .ok Table.empty

/-- `filter_5_pol_hagigi_ratio` (lines 265-287). -/
def filter5 (t : Table) : Except String Table :=
  if t.rows.isEmpty then .ok t
  else do
    _ ← colCheck t "pol_hagigi_to_avg_monthly_value"
    let mpr ← cfgGet POL_HAGIGI_FILTER_CONFIG "min_pol_to_value_ratio"
    _ ← colCheck t "sarane_kharid"
    let msk ← cfgGet POL_HAGIGI_FILTER_CONFIG "min_sarane_kharid"
    _ ← colCheck t "godrat_kharid"
    let mgk ← cfgGet POL_HAGIGI_FILTER_CONFIG "min_godrat_kharid"
    let flt := t.rows.filter (fun r =>
      (rget r "pol_hagigi_to_avg_monthly_value").geQ mpr &&
      (rget r "sarane_kharid").geQ msk &&
      (rget r "godrat_kharid").geQ mgk)
    if flt.isEmpty then pure Table.empty
    else pure ⟨t.cols, sortRowsDesc "pol_hagigi_to_avg_monthly_value" flt⟩

/-- `filter_6_tick_and_time` (lines 292-321): adds a `tick_diff` column, then
filters on the first/low/last price shape and a positive tick. -/
def filter6 (t : Table) : Except String Table :=
  if t.rows.isEmpty then .ok t
  else do
    let ftl := cfgGetD TICK_FILTER_CONFIG "first_to_low_ratio" 0.98
    let ltf := cfgGetD TICK_FILTER_CONFIG "last_to_first_ratio" 0.98
    let tdp := cfgGetD TICK_FILTER_CONFIG "tick_diff_percent" 2
    _ ← colCheck t "last_price_change_percent"
    _ ← colCheck t "final_price_change_percent"
    let rows2 := t.rows.map (fun r =>
      r ++ [("tick_diff",
        (rget r "last_price_change_percent").subV (rget r "final_price_change_percent"))])
    _ ← colCheck t "first_price"
    _ ← colCheck t "low_price"
    _ ← colCheck t "last_price"
    let flt := rows2.filter (fun r =>
      ((rget r "first_price").mulQ ftl).gtV (rget r "low_price") &&
      ((rget r "last_price").mulQ ltf).gtV (rget r "first_price") &&
      (rget r "tick_diff").gtQ tdp)
    if flt.isEmpty then pure Table.empty
    else pure ⟨t.cols ++ ["tick_diff"], sortRowsDesc "tick_diff" flt⟩

/-- `filter_7_suspicious_volume` (lines 326-345). -/
def filter7 (t : Table) : Except String Table :=
  if t.rows.isEmpty then .ok t
  else do
    let mr := cfgGetD SUSPICIOUS_VOLUME_CONFIG "min_value_to_avg_ratio" 2
    _ ← colCheck t "value_to_avg_monthly_value"
    let flt := t.rows.filter (fun r => (rget r "value_to_avg_monthly_value").gtQ mr)
    if flt.isEmpty then pure Table.empty
    else pure ⟨t.cols, sortRowsDesc "value_to_avg_monthly_value" flt⟩

/-- `filter_8_swing_trade` (lines 350-375). -/
def filter8 (t : Table) : Except String Table :=
  if t.rows.isEmpty then .ok t
  else do
    _ ← colCheck t "low_price_change_percent"
    let map ← cfgGet SWING_TRADE_CONFIG "min_allowed_price"
    _ ← colCheck t "last_price_change_percent"
    _ ← colCheck t "godrat_kharid"
    let mgk ← cfgGet SWING_TRADE_CONFIG "min_godrat_kharid"
    _ ← colCheck t "sarane_kharid"
    let msk ← cfgGet SWING_TRADE_CONFIG "min_sarane_kharid"
    _ ← colCheck t "value_to_avg_monthly_value"
    let mva ← cfgGet SWING_TRADE_CONFIG "min_value_to_avg_monthly"
    let mlc ← cfgGet SWING_TRADE_CONFIG "max_last_change_percent"
    let flt := t.rows.filter (fun r =>
      (rget r "low_price_change_percent").eqQ map &&
      (rget r "last_price_change_percent").gtQ map &&
      (rget r "godrat_kharid").geQ mgk &&
      (rget r "sarane_kharid").geQ msk &&
      (rget r "value_to_avg_monthly_value").geQ mva &&
      (rget r "last_price_change_percent").ltQ mlc)
    if flt.isEmpty then pure Table.empty
    else pure ⟨t.cols, sortRowsDesc "godrat_kharid" flt⟩

/-- `filter_9_first_hour` (lines 380-413).  `apply_all_filters` calls it with
`current_hour=None`, in which case the code reads the Tehran wall clock; the
hour is therefore an explicit parameter here. -/
def filter9 (t : Table) (currentHour : ℕ) : Except String Table :=
  if t.rows.isEmpty then .ok t
  else do
    let startHour := cfgGetD FIRST_HOUR_CONFIG "start_hour" 9
    let endHour := cfgGetD FIRST_HOUR_CONFIG "end_hour" 10
    let mr := cfgGetD FIRST_HOUR_CONFIG "min_value_to_avg_ratio" 1
    if !(decide (startHour ≤ (currentHour : ℚ)) && decide ((currentHour : ℚ) < endHour)) then
      pure Table.empty
    else do
      _ ← colCheck t "value_to_avg_monthly_value"
      let flt := t.rows.filter (fun r => (rget r "value_to_avg_monthly_value").geQ mr)
      if flt.isEmpty then pure Table.empty
      else pure ⟨t.cols, sortRowsDesc "value_to_avg_monthly_value" flt⟩

/-- The columns `filter_10_heavy_buy_queue` requires in the second API's frame
(data_processor.py line 453). -/
def filter10RequiredCols : List String :=
  ["last_price", "ceiling_price", "buy_order", "buy_queue_value"]

/-- The diagnostic `missing_cols` of line 454, logged at line 457 before the
rule is skipped. -/
def filter10MissingCols (t : Table) : List String :=
  filter10RequiredCols.filter (fun c => !(t.cols.contains c))

/-- The columns pulled from the first API for enrichment (lines 478-481). -/
def columnsFromApi1 : List String :=
  ["symbol", "sarane_kharid", "pol_hagigi", "value_to_avg_monthly_value",
   "godrat_kharid", "value", "sarane_forosh"]

/-- Symbol cleaning for the merge key: `str.strip().str.upper()` (lines
490-491). -/
def cleanSym : Val → Val
  | .str s => .str s.trim.toUpper
  | v => v

/-- `filter_10_heavy_buy_queue` (lines 418-542): filter the second API's frame
on price-at-ceiling and heavy buy order/queue; when required columns are
missing, log them and return the empty frame instead of raising; then
left-join the available first-API columns on the cleaned symbol, computing
`pol_hagigi_to_value` with safe division and preferring the first API's
`value` (`fillna` with the second API's). -/
def filter10 (api2 api1 : Table) : Except String Table :=
  if api2.rows.isEmpty then .ok api2
  else do
    let mbo ← cfgGet HEAVY_BUY_QUEUE_CONFIG "min_buy_order"
    let mbq ← cfgGet HEAVY_BUY_QUEUE_CONFIG "min_buy_queue_value"
    if !(filter10MissingCols api2).isEmpty then pure Table.empty
    else do
      let flt := api2.rows.filter (fun r =>
        (rget r "last_price").eqV (rget r "ceiling_price") &&
        (rget r "buy_order").geQ mbo &&
        (rget r "buy_queue_value").geQ mbq)
      if flt.isEmpty then pure Table.empty
      else if api1.rows.isEmpty then
        pure ⟨api2.cols, sortRowsDesc "buy_queue_value" flt⟩
      else do
        let avail := columnsFromApi1.filter (fun c => api1.cols.contains c)
        if !(avail.contains "symbol") then
          pure ⟨api2.cols, sortRowsDesc "buy_queue_value" flt⟩
        else do
          _ ← colCheck ⟨api2.cols, flt⟩ "symbol"
          let withRatio := avail.contains "pol_hagigi" && avail.contains "value"
          let api1Sub := api1.rows.map (fun r =>
            let base := avail.map (fun c => (c, rget r c))
            if withRatio then
              base ++ [("pol_hagigi_to_value",
                safeDivVal (rget r "pol_hagigi") (rget r "value"))]
            else base)
          let extraCols := avail.filter (fun c => !(c == "symbol") && !(c == "value"))
          let enriched := flt.map (fun r2 =>
            match api1Sub.find? (fun r1 =>
                (cleanSym (rget r1 "symbol")).eqV (cleanSym (rget r2 "symbol"))) with
            | some r1 =>
                let r2v :=
                  if avail.contains "value" then
                    rowSet r2 "value"
                      (match rget r1 "value" with
                       | .num q => .num q
                       | _ => rget r2 "value")
                  else r2
                let r2v := r2v ++ extraCols.map (fun c => (c, rget r1 c))
                if withRatio then r2v ++ [("pol_hagigi_to_value", rget r1 "pol_hagigi_to_value")]
                else r2v
            | none =>
                let r2v := r2 ++ extraCols.map (fun c => (c, Val.nan))
                if withRatio then r2v ++ [("pol_hagigi_to_value", Val.nan)] else r2v)
          let newCols := (extraCols ++ if withRatio then ["pol_hagigi_to_value"] else []).filter
            (fun c => !(api2.cols.contains c))
          pure ⟨api2.cols ++ newCols, sortRowsDesc "buy_queue_value" enriched⟩

/-- `apply_all_filters` (lines 547-583): filters 1-9 run in order on the first
API's frame, filter 10 on the second; there is no exception handling, so the
first `KeyError` aborts the whole evaluation. -/
def applyAllFilters (api1 api2 : Table) (currentHour : ℕ) :
    Except String (List (String × Table) × List (String × Table)) := do
  let r1 ←
    if api1.rows.isEmpty then pure []
    else do
      let f1 ← filter1 api1
      let f2 ← filter2 api1
      let f3 ← filter3 api1 WATCHLIST_SYMBOLS
      let f4 ← filter4 api1
      let f5 ← filter5 api1
      let f6 ← filter6 api1
      let f7 ← filter7 api1
      let f8 ← filter8 api1
      let f9 ← filter9 api1 currentHour
      pure [("filter_1_strong_buying", f1), ("filter_2_sarane_cross", f2),
            ("filter_3_watchlist", f3), ("filter_4_ceiling_queue", f4),
            ("filter_5_pol_hagigi_ratio", f5), ("filter_6_tick_time", f6),
            ("filter_7_suspicious_volume", f7), ("filter_8_swing_trade", f8),
            ("filter_9_first_hour", f9)]
  let r2 ←
    if api2.rows.isEmpty then pure []
    else do
      let f10 ← filter10 api2 api1
      pure [("filter_10_heavy_buy_queue", f10)]
  pure (r1, r2)

/-! Telegram send with retry, `TelegramAlert.send_message`
(`src/utils/alerts.py` lines 24-63). -/

/-- Outcome of one `bot.send_message` call, as the code's exception handlers
distinguish them. -/
inductive TgOutcome where
  /-- The call returned normally. -/
  | success
  /-- `telegram.error.RetryAfter` with the sink-signalled `retry_after`
  duration in seconds. -/
  | retryAfterExc (secs : ℚ)
  /-- `telegram.error.TimedOut`. -/
  | timedOutExc
  /-- Any other exception. -/
  | otherExc
deriving DecidableEq, Repr

/-- Observable behaviour of one `send_message` call: its boolean return, how
many `bot.send_message` attempts it made, and the durations it slept. -/
structure SendTrace where
  result : Bool
  attempts : ℕ
  sleeps : List ℚ
deriving DecidableEq, Repr

/-- `send_message` (lines 24-63), driven by the outcomes of its first and (if
reached) second `bot.send_message` call.  First call succeeding sleeps 4s of
pacing and returns `True`; `RetryAfter e` sleeps `e.retry_after` and retries
exactly once, any exception of the retry giving `False`; `TimedOut` sleeps 2s
and retries once likewise; any other exception returns `False` at once. -/
def sendMessage (first second : TgOutcome) : SendTrace :=
  match first with
  | .success => ⟨true, 1, [4]⟩
  | .retryAfterExc r =>
      match second with
      | .success => ⟨true, 2, [r]⟩
      | _ => ⟨false, 2, [r]⟩
  | .timedOutExc =>
      match second with
      | .success => ⟨true, 2, [2]⟩
      | _ => ⟨false, 2, [2]⟩
  | .otherExc => ⟨false, 1, []⟩

/-! Dispatch bookkeeping of `send_alerts_for_filters_async`
(`src/main.py` lines 112-199). -/

/-- One dispatch batch (one `send_filter_alert` task): the chunk's symbols
that passed the dedup pre-filter, and the rule name. -/
structure Batch where
  symbols : List String
  filterName : String
deriving DecidableEq, Repr

/-- The result `asyncio.gather(..., return_exceptions=True)` reports for one
batch task (lines 177-192). -/
inductive SendOutcome where
  /-- `send_filter_alert` returned `True`. -/
  | sentOk
  /-- It returned `False`. -/
  | sendFailed
  /-- It raised; gather captured the exception. -/
  | raised
deriving DecidableEq, Repr

/-- The `(symbol, filter_name)` pairs of a batch, as line 188 builds them. -/
def batchPairs (b : Batch) : List Entry :=
  b.symbols.map (fun s => (s, b.filterName))

/-- `successful_marks` (lines 180-192): after all sends complete, the pairs of
every batch whose send returned `True`, in task order. -/
def successfulMarks (tasks : List (Batch × SendOutcome)) : List Entry :=
  ((tasks.filter (fun p => p.2 == .sentOk)).map (fun p => batchPairs p.1)).flatten

/-- The `mark_multiple_as_sent` invocations the function makes, each with its
argument list (lines 194-197): one single call with all successful batches'
pairs, only if there are any, and only after `asyncio.gather` has resolved
every batch's outcome. -/
def commitCalls (tasks : List (Batch × SendOutcome)) : List (List Entry) :=
  let m := successfulMarks tasks
  if m.isEmpty then [] else [m]

/-- `sent_count` as accumulated at line 189. -/
def sentCount (tasks : List (Batch × SendOutcome)) : ℕ :=
  (((tasks.filter (fun p => p.2 == .sentOk)).map (fun p => p.1.symbols.length))).sum

/-! The daily-summary job, `src/daily_summary_main.py` and
`DailySummaryGenerator.generate_and_send`
(`src/utils/daily_summary_generator.py` lines 147-183). -/

/-- `should_send_summary` (daily_summary_main.py lines 40-55): true from 12:30
Tehran time on. -/
def shouldSendSummary (hour minute : ℕ) : Bool :=
  if hour < 12 then false
  else if hour == 12 && minute < 30 then false
  else true

/-- Whether one invocation of the daily-summary `main_async`
(daily_summary_main.py lines 58-101) dispatches the summary to the sink: after
the time check passes, `generate_and_send` reads the gist only to build the
message text and always proceeds to `telegram.send_message` (generator lines
158-172); no per-day flag is read before sending nor written after. -/
def dailySummaryRuns (hour minute : ℕ) : Bool :=
  shouldSendSummary hour minute

/-- Number of dispatches over a same-day sequence of scheduler invocations at
the given Tehran `(hour, minute)` times. -/
def dailySummaryDispatches (invocations : List (ℕ × ℕ)) : ℕ :=
  (invocations.filter (fun t => dailySummaryRuns t.1 t.2)).length

/-! Concrete inputs used by the claim theorems. -/

/-- The spec's scenario row for the strong-buying rule, in the column names of
the processed first-API frame: `value_ratio` is `value_to_avg_monthly_value`,
`buy_per_capita` is `sarane_kharid`, `buy_power` is `godrat_kharid`, and the
5-day figure is the `5_day_godrat_kharid` column. -/
def specRow1 : Row :=
  [("symbol", .str "AAA"), ("value_to_avg_monthly_value", .num 1.6),
   ("sarane_kharid", .num 60), ("godrat_kharid", .num 1.2),
   ("5_day_godrat_kharid", .num 0.9)]

/-- The same row with `godrat_kharid` lowered to 0.8. -/
def specRow2 : Row :=
  [("symbol", .str "AAA"), ("value_to_avg_monthly_value", .num 1.6),
   ("sarane_kharid", .num 60), ("godrat_kharid", .num 0.8),
   ("5_day_godrat_kharid", .num 0.9)]

/-- The columns of the one-row scenario table. -/
def specCols : List String :=
  ["symbol", "value_to_avg_monthly_value", "sarane_kharid", "godrat_kharid",
   "5_day_godrat_kharid"]

/-- A nonempty first-API frame that lacks every numeric rule input. -/
def missingColsTable : Table := ⟨["symbol"], [[("symbol", Val.str "AAA")]]⟩

/-! Further lemmas about the dict model, used by the claim theorems. -/

theorem except_bind_ok {α β : Type} (a : α) (f : α → Except String β) :
    (Except.ok a >>= f) = f a := rfl

theorem except_bind_error {α β : Type} (e : String) (f : α → Except String β) :
    ((Except.error e : Except String α) >>= f) = Except.error e := rfl

theorem strLe_refl (a : String) : strLe a a = true := by
  show charListLe a.data a.data = true
  induction a.data with
  | nil => rfl
  | cons c cs ih => simpa [charListLe] using ih

theorem getD_eq_nil_of_hasKey_eq_false {d : GistDoc} {k : String}
    (h : hasKey d k = false) : getD d k = [] := by
  unfold getD
  unfold hasKey at h
  cases hf : d.find? (fun p => p.1 == k) with
  | none => rfl
  | some p => rw [hf] at h; simp at h

theorem hasKey_setKey_self (d : GistDoc) (k : String) (v : List Entry) :
    hasKey (setKey d k v) k = true := by
  induction d with
  | nil => simp [setKey, hasKey, List.find?]
  | cons p rest ih =>
      obtain ⟨k', v'⟩ := p
      by_cases h : k' = k
      · simp [setKey, hasKey, List.find?, h]
      · have hb : (k' == k) = false := by simp [h]
        simp only [setKey, hb, Bool.false_eq_true, if_neg, not_false_iff]
        simpa [hasKey, List.find?, hb] using ih

theorem hasKey_iff_mem_keysOf {d : GistDoc} {k : String} :
    hasKey d k = true ↔ k ∈ keysOf d := by
  induction d with
  | nil => simp [hasKey, keysOf, List.find?]
  | cons p rest ih =>
      obtain ⟨k', v'⟩ := p
      by_cases h : k' = k
      · simp [hasKey, keysOf, List.find?, h]
      · have hb : (k' == k) = false := by simp [h]
        simp only [hasKey, keysOf, List.map_cons, List.find?, hb, List.mem_cons]
        rw [← keysOf] at *
        constructor
        · intro hs
          exact Or.inr (ih.mp hs)
        · intro hs
          rcases hs with hs | hs
          · exact absurd hs.symm h
          · exact ih.mpr hs

theorem keysOf_pruneKeep3 (d : GistDoc) :
    keysOf (pruneKeep3 d) = (sortKeysDesc (keysOf d)).take 3 := by
  show (((sortKeysDesc (keysOf d)).take 3).map (fun k => (k, getD d k))).map (fun x => x.1) =
    (sortKeysDesc (keysOf d)).take 3
  rw [List.map_map]
  exact List.map_id _

theorem getD_map_getD (d : GistDoc) (ks : List String) (k : String) (hk : k ∈ ks) :
    getD (ks.map (fun x => (x, getD d x))) k = getD d k := by
  induction ks with
  | nil => simp at hk
  | cons x xs ih =>
      by_cases h : x = k
      · subst h
        simp [getD, List.find?]
      · have hb : (x == k) = false := by simp [h]
        have hk2 : k ∈ xs := by
          rcases List.mem_cons.mp hk with h2 | h2
          · exact absurd h2.symm h
          · exact h2
        show getD ((x, getD d x) :: xs.map (fun x => (x, getD d x))) k = getD d k
        simpa [getD, List.find?, hb] using ih hk2

theorem mem_take3_of_max {ks : List String} {k : String} (hk : k ∈ ks)
    (hmax : ∀ j ∈ ks, strLe j k = true) (hnodup : ks.Nodup) :
    k ∈ (sortKeysDesc ks).take 3 := by
  have hperm := sortB_perm (fun a b : String => strLe b a) ks
  have hks : k ∈ sortKeysDesc ks := mem_sortB.mpr hk
  have hp : (sortKeysDesc ks).Pairwise (fun a b => strLe b a = true) := by
    apply pairwise_sortB
    · intro a b
      exact strLe_total b a
    · intro a b c hab hbc
      exact strLe_trans hbc hab
  have hnds : (sortKeysDesc ks).Nodup := hperm.nodup_iff.mpr hnodup
  by_contra hnot
  set s := sortKeysDesc ks with hs
  have hkdrop : k ∈ s.drop 3 := by
    have h2 := hks
    rw [← List.take_append_drop 3 s] at h2
    rcases List.mem_append.mp h2 with h3 | h3
    · exact absurd h3 hnot
    · exact h3
  have hlen : 3 < s.length := by
    by_contra hle
    have : s.drop 3 = [] := List.drop_eq_nil_of_le (by omega)
    simp [this] at hkdrop
  have htake : ∃ j, j ∈ s.take 3 := by
    apply List.exists_mem_of_length_pos
    simp [List.length_take]
    omega
  obtain ⟨j, hj⟩ := htake
  have hcross : ∀ a ∈ s.take 3, ∀ b ∈ s.drop 3, strLe b a = true := by
    have hpa : (s.take 3 ++ s.drop 3).Pairwise (fun a b => strLe b a = true) := by
      rw [List.take_append_drop]; exact hp
    exact fun a ha b hb => (List.pairwise_append.mp hpa).2.2 a ha b hb
  have h1 : strLe k j = true := hcross j hj k hkdrop
  have h2 : strLe j k = true := hmax j (hperm.mem_iff.mp (List.mem_of_mem_take hj))
  have hjk : j = k := strLe_antisymm h2 h1
  subst hjk
  have hdisj : (s.take 3).Disjoint (s.drop 3) := by
    have hnds2 : (s.take 3 ++ s.drop 3).Nodup := by
      rw [List.take_append_drop]; exact hnds
    exact (List.nodup_append.mp hnds2).2.2
  exact hdisj hj hkdrop

theorem getD_pruneKeep3 {d : GistDoc} {k : String} (hk : k ∈ keysOf d)
    (hmax : ∀ j ∈ keysOf d, strLe j k = true) (hnodup : (keysOf d).Nodup) :
    getD (pruneKeep3 d) k = getD d k := by
  unfold pruneKeep3
  exact getD_map_getD d _ k (mem_take3_of_max hk hmax hnodup)

@[simp] theorem getD_single_self (k : String) (v : List Entry) : getD [(k, v)] k = v := by
  simp [getD, List.find?]

@[simp] theorem hasKey_single_self (k : String) (v : List Entry) :
    hasKey [(k, v)] k = true := by
  simp [hasKey, List.find?]

@[simp] theorem setKey_single_self (k : String) (v w : List Entry) :
    setKey [(k, v)] k w = [(k, w)] := by
  simp [setKey]

@[simp] theorem pruneKeep3_single (k : String) (v : List Entry) :
    pruneKeep3 [(k, v)] = [(k, v)] := by
  simp [pruneKeep3, keysOf, sortKeysDesc, sortB, insertB]

theorem dailySummaryRuns_iff (h m : ℕ) :
    dailySummaryRuns h m = true ↔ (12 < h ∨ (h = 12 ∧ 30 ≤ m)) := by
  unfold dailySummaryRuns shouldSendSummary
  by_cases h1 : h < 12 <;> by_cases h2 : h = 12 <;> by_cases h3 : m < 30 <;>
    simp [h1, h2, h3] <;> omega

/-! Claim theorems. -/

/-- C10: if the initial synchronous gist load of `should_send_alert` fails
(non-200 status or exception, `loadRes = none`), the cache is set to the empty
document, today's partition reads as empty, and the check returns `True`
(eligible to send) for every `(symbol, rule)` pair — the dedup check fails
open. -/
theorem C10_fail_open_dedup (today sym typ : String) (remote : GistDoc) :
    (shouldSendAlert none today sym typ ⟨remote, none⟩).1 = true ∧
    (shouldSendAlert none today sym typ ⟨remote, none⟩).2.cache = some [] :=
  ⟨rfl, rfl⟩

/-- C7: when the first `bot.send_message` raises `RetryAfter r`, `send_message`
sleeps exactly the signalled `r` seconds, makes exactly one more attempt, and
returns `True` precisely when that retry succeeds — any failure of the retry
yields `False` without raising. -/
theorem C7_rate_limit_retry (r : ℚ) (second : TgOutcome) :
    (sendMessage (.retryAfterExc r) second).attempts = 2 ∧
    (sendMessage (.retryAfterExc r) second).sleeps = [r] ∧
    ((sendMessage (.retryAfterExc r) second).result = true ↔ second = .success) := by
  cases second <;> simp [sendMessage]

/-- C9 (counterexample): two scheduler invocations of the daily-summary job on
the same day at 13:00 and 13:05 both dispatch the summary — the code has no
per-day gate, refuting "at most once per calendar day". -/
theorem C9_counterexample :
    dailySummaryDispatches [(13, 0), (13, 5)] = 2 ∧
    ¬ (dailySummaryDispatches [(13, 0), (13, 5)] ≤ 1) := by
  decide

/-- C9 (amended): the daily-summary job is gated only by the time of day: an
invocation dispatches the summary exactly when it happens at or after 12:30
Tehran time, independently of how many dispatches already happened that day
(no per-day gate flag is read or written). -/
theorem C9_amended_time_gate_only (invocations : List (ℕ × ℕ)) (h m : ℕ) :
    (dailySummaryDispatches (invocations ++ [(h, m)]) =
      dailySummaryDispatches invocations +
        (if 12 < h ∨ (h = 12 ∧ 30 ≤ m) then 1 else 0)) ∧
    (dailySummaryRuns h m = true ↔ (12 < h ∨ (h = 12 ∧ 30 ≤ m))) := by
  refine ⟨?_, dailySummaryRuns_iff h m⟩
  by_cases hr : 12 < h ∨ (h = 12 ∧ 30 ≤ m)
  · have hb : dailySummaryRuns h m = true := (dailySummaryRuns_iff h m).mpr hr
    simp [dailySummaryDispatches, List.filter_append, hb, hr]
  · have hb : dailySummaryRuns h m = false :=
      Bool.eq_false_iff.mpr (fun h0 => hr ((dailySummaryRuns_iff h m).mp h0))
    simp [dailySummaryDispatches, List.filter_append, hb, hr]

/-- C8 (counterexample): a row whose `pol_hagigi` failed numeric coercion
(NaN) but whose `avg_monthly_value` is a valid non-zero number (raw
50000000000, scaled to 5) gets `pol_hagigi_to_avg_monthly_value = NaN` — the
computation does yield NaN, refuting "never yields NaN". -/
theorem C8_counterexample :
    cleanRatio Val.nan (Val.num 50000000000) = Val.nan := by
  have h : (50000000000 : ℚ) / 10000000000 = 5 := by norm_num
  simp [cleanRatio, scaleE10, safeDivVal, h]

/-- C8 (amended): whenever the numerator `pol_hagigi` is a number, the derived
ratio is always a number (never NaN, never an error): `pol / avg` when the
denominator is a valid non-zero number, and 0 when the denominator is zero or
missing. -/
theorem C8_amended_safe_division (p : ℚ) (avgRaw : Val) :
    cleanRatio (Val.num p) avgRaw =
      Val.num (match avgRaw with
        | Val.num a => if a = 0 then 0 else p / a
        | _ => 0) := by
  cases avgRaw with
  | num a =>
      by_cases ha : a = 0
      · subst ha
        simp [cleanRatio, scaleE10, safeDivVal]
      · have h10 : (10000000000 : ℚ) ≠ 0 := by norm_num
        have h1 : (a / 10000000000 : ℚ) ≠ 0 := div_ne_zero ha h10
        have h2 : p / 10000000000 / (a / 10000000000) = p / a :=
          div_div_div_cancel_right₀ h10 p a
        simp [cleanRatio, scaleE10, safeDivVal, h1, ha, h2]
  | nan => simp [cleanRatio, scaleE10, safeDivVal]
  | str s => simp [cleanRatio, scaleE10, safeDivVal]

/-- C2 (counterexample): two batches for rule `f1`, both sends confirmed
successful.  The function issues exactly one `mark_multiple_as_sent` call
containing both batches' pairs together; no commit call contains exactly the
first batch's pairs, refuting "the commit call contains exactly that batch's
pairs". -/
theorem C2_counterexample :
    commitCalls [(⟨["AAA"], "f1"⟩, .sentOk), (⟨["BBB"], "f1"⟩, .sentOk)] =
      [[("AAA", "f1"), ("BBB", "f1")]] ∧
    ¬ ∃ c ∈ commitCalls [(⟨["AAA"], "f1"⟩, .sentOk), (⟨["BBB"], "f1"⟩, .sentOk)],
        c = batchPairs ⟨["AAA"], "f1"⟩ := by
  decide

/-- C2 (amended): `send_alerts_for_filters_async` makes at most one ledger
commit call per filter group, issued only after `asyncio.gather` has resolved
every batch's send outcome; that single call carries exactly the pairs of the
batches whose sends returned success, so a pair is committed iff it belongs to
a successfully sent batch — pairs only in failed or raising batches are never
committed in that run. -/
theorem C2_amended_aggregated_commit (tasks : List (Batch × SendOutcome)) :
    (commitCalls tasks).length ≤ 1 ∧
    (∀ c ∈ commitCalls tasks, c = successfulMarks tasks) ∧
    (∀ e : Entry, e ∈ successfulMarks tasks ↔
      ∃ b : Batch, (b, SendOutcome.sentOk) ∈ tasks ∧ e ∈ batchPairs b) := by
  refine ⟨?_, ?_, ?_⟩
  · unfold commitCalls
    by_cases hm : (successfulMarks tasks).isEmpty <;> simp [hm]
  · intro c hc
    unfold commitCalls at hc
    by_cases hm : (successfulMarks tasks).isEmpty <;> simp [hm] at hc
    exact hc
  · intro e
    simp only [successfulMarks, List.mem_flatten, List.mem_map, List.mem_filter]
    constructor
    · rintro ⟨l, ⟨⟨b, o⟩, ⟨hmem, hok⟩, rfl⟩, he⟩
      have ho : o = .sentOk := by simpa using hok
      subst ho
      exact ⟨b, hmem, he⟩
    · rintro ⟨b, hmem, he⟩
      exact ⟨batchPairs b, ⟨(b, .sentOk), ⟨hmem, by simp⟩, rfl⟩, he⟩

/-- C4: for a manager whose cache mirrors the last-read remote document (the
single-run, single-writer situation the claim describes, `today` being the
newest day key):
(i) with a populated cache `should_send_alert` is read-only, so repeated calls
within the run return the same answer;
(ii) while no entry matching the pair is in today's partition, the check
reports the pair as not sent (`True`);
(iii) a `mark_multiple_as_sent` whose save succeeds and whose argument list
contains the pair returns `True`, and afterwards the check reports the pair as
already sent (`False`). -/
theorem C4_dedup_check_lifecycle (c : GistDoc) (today sym typ : String)
    (alerts : List Entry) (lr lr2 : Option GistDoc)
    (hmax : ∀ k ∈ keysOf c, strLe k today = true)
    (hnodup : (keysOf c).Nodup)
    (hpair : (sym, typ) ∈ alerts) :
    (shouldSendAlert lr today sym typ ⟨c, some c⟩).2 = ⟨c, some c⟩ ∧
    (shouldSendAlert lr2 today sym typ
        ((shouldSendAlert lr today sym typ ⟨c, some c⟩).2)).1 =
      (shouldSendAlert lr today sym typ ⟨c, some c⟩).1 ∧
    ((¬ ∃ a ∈ getD c today, alertMatches sym typ a = true) →
      (shouldSendAlert lr today sym typ ⟨c, some c⟩).1 = true) ∧
    (markMultipleAsSent true today alerts ⟨c, some c⟩).1 = true ∧
    (shouldSendAlert lr2 today sym typ
        (markMultipleAsSent true today alerts ⟨c, some c⟩).2).1 = false := by
  have halerts : alerts.isEmpty = false := by
    cases alerts with
    | nil => simp at hpair
    | cons x xs => rfl
  have hmatch : alertMatches sym typ (sym, typ) = true := by simp [alertMatches]
  -- the intermediate documents of mark_multiple_as_sent
  have hd0 : getD (if hasKey c today then c else setKey c today []) today =
      getD c today := by
    by_cases hk : hasKey c today = true
    · simp [hk]
    · have hk2 : hasKey c today = false := Bool.eq_false_iff.mpr hk
      simp [hk2, getD_setKey_self, getD_eq_nil_of_hasKey_eq_false hk2]
  have hmark : markMultipleAsSent true today alerts ⟨c, some c⟩ =
      (if (alerts.filter (fun a => !((getD c today).contains a))).isEmpty then
        (true, (⟨c, some c⟩ : Manager))
      else
        (true,
          ⟨pruneKeep3 (setKey (if hasKey c today then c else setKey c today []) today
              (getD c today ++ alerts.filter (fun a => !((getD c today).contains a)))),
            some (pruneKeep3 (setKey (if hasKey c today then c else setKey c today []) today
              (getD c today ++ alerts.filter (fun a => !((getD c today).contains a)))))⟩)) := by
    simp only [markMultipleAsSent, halerts, Bool.false_eq_true, if_false, if_true, hd0]
  by_cases hne : (alerts.filter (fun a => !((getD c today).contains a))).isEmpty = true
  · -- nothing new: every alert, in particular the pair, is already in the
    -- partition; the call is a successful no-op and the check reports sent
    have hpairin : (sym, typ) ∈ getD c today := by
      have hfil := List.isEmpty_iff.mp hne
      have := List.filter_eq_nil_iff.mp hfil (sym, typ) hpair
      simp at this
      exact this
    have hany : (getD c today).any (alertMatches sym typ) = true :=
      List.any_eq_true.mpr ⟨(sym, typ), hpairin, hmatch⟩
    refine ⟨rfl, rfl, ?_, ?_, ?_⟩
    · intro hno
      exact absurd ⟨(sym, typ), hpairin, hmatch⟩ hno
    · rw [hmark, if_pos hne]
    · rw [hmark, if_pos hne]
      show (!((getD c today).any (alertMatches sym typ))) = false
      simp [hany]
  · -- something new is written: the pruned document still holds today's
    -- partition, which now contains the pair
    have hne2 : (alerts.filter (fun a => !((getD c today).contains a))).isEmpty = false :=
      Bool.eq_false_iff.mpr hne
    set d0 : GistDoc := if hasKey c today then c else setKey c today [] with hd0def
    set nw : List Entry := alerts.filter (fun a => !((getD c today).contains a)) with hnw
    set d1 : GistDoc := setKey d0 today (getD c today ++ nw) with hd1
    have hkeys0 : keysOf d0 = keysOf c ∨ keysOf d0 = keysOf c ++ [today] := by
      rw [hd0def]
      by_cases hk : hasKey c today = true
      · exact Or.inl (by simp [hk])
      · have hk2 : hasKey c today = false := Bool.eq_false_iff.mpr hk
        right
        simp only [hk2, Bool.false_eq_true, if_false]
        rw [keysOf_setKey, hk2]
        simp
    have hhk0 : hasKey d0 today = true := by
      rw [hd0def]
      by_cases hk : hasKey c today = true
      · simp [hk]
      · have hk2 : hasKey c today = false := Bool.eq_false_iff.mpr hk
        simp only [hk2, Bool.false_eq_true, if_false]
        exact hasKey_setKey_self c today []
    have hkeys1 : keysOf d1 = keysOf d0 := by
      rw [hd1, keysOf_setKey, hhk0]
      simp
    have hmem1 : today ∈ keysOf d1 := by
      rw [← hasKey_iff_mem_keysOf, hd1]
      exact hasKey_setKey_self d0 today _
    have hmax1 : ∀ j ∈ keysOf d1, strLe j today = true := by
      intro j hj
      rw [hkeys1] at hj
      rcases hkeys0 with he | he
      · exact hmax j (he ▸ hj)
      · rw [he] at hj
        rcases List.mem_append.mp hj with hj2 | hj2
        · exact hmax j hj2
        · have : j = today := by simpa using hj2
          subst this
          exact strLe_refl j
    have hnodup1 : (keysOf d1).Nodup := by
      rw [hkeys1]
      rcases hkeys0 with he | he
      · exact he ▸ hnodup
      · rw [he]
        have hk2 : hasKey c today = false := by
          by_contra hcon
          have hk3 : hasKey c today = true := by
            cases hck : hasKey c today
            · exact absurd hck hcon
            · rfl
          have : keysOf d0 = keysOf c := by rw [hd0def]; simp [hk3]
          rw [this] at he
          have hlen := congrArg List.length he
          simp at hlen
        have hnotmem : today ∉ keysOf c := fun hmem =>
          by rw [← hasKey_iff_mem_keysOf] at hmem; rw [hmem] at hk2; simp at hk2
        simp [List.nodup_append, hnodup, hnotmem]
    have hgd1 : getD d1 today = getD c today ++ nw := by
      rw [hd1]
      exact getD_setKey_self d0 today _
    have hprune : getD (pruneKeep3 d1) today = getD c today ++ nw := by
      rw [getD_pruneKeep3 hmem1 hmax1 hnodup1]
      exact hgd1
    have hpairin : (sym, typ) ∈ getD c today ++ nw := by
      by_cases hin : (sym, typ) ∈ getD c today
      · exact List.mem_append.mpr (Or.inl hin)
      · refine List.mem_append.mpr (Or.inr ?_)
        rw [hnw]
        refine List.mem_filter.mpr ⟨hpair, ?_⟩
        simp only [Bool.not_eq_true']
        exact Bool.eq_false_iff.mpr (fun hcon => hin (by simpa using hcon))
    refine ⟨rfl, rfl, ?_, ?_, ?_⟩
    · intro hno
      show (!((getD c today).any (alertMatches sym typ))) = true
      simp only [Bool.not_eq_true', List.any_eq_false]
      intro a ha hp
      exact hno ⟨a, ha, hp⟩
    · rw [hmark, if_neg (by simp [hne2])]
    · rw [hmark, if_neg (by simp [hne2])]
      show (!((getD (pruneKeep3 d1) today).any (alertMatches sym typ))) = false
      have hany : (getD (pruneKeep3 d1) today).any (alertMatches sym typ) = true := by
        rw [hprune]
        exact List.any_eq_true.mpr ⟨(sym, typ), hpairin, hmatch⟩
      simp [hany]

/-- C3: the retention step of `_save_to_gist` keeps at most 3 day partitions —
the lexicographically (= chronologically) greatest day keys, with their
contents preserved: every dropped key is strictly below every kept key.  Every
store mutation of the commit machine, and every remote mutation of a
`mark_multiple_as_sent`, writes such a pruned document, and pruning on day D4
with partitions D1..D4 leaves exactly D4, D3, D2. -/
theorem C3_retention_bound :
    (∀ d : GistDoc, (pruneKeep3 d).length ≤ 3) ∧
    (∀ d : GistDoc, ∀ kv ∈ pruneKeep3 d, kv.1 ∈ keysOf d ∧ kv.2 = getD d kv.1) ∧
    (∀ d : GistDoc, ∀ k ∈ keysOf d, k ∉ keysOf (pruneKeep3 d) →
      ∀ j ∈ keysOf (pruneKeep3 d), strLe k j = true ∧ k ≠ j) ∧
    (∀ (cond : Bool) (today : String) (s : LedgerState) (i : Bool),
      (stepLedger cond today s i).store = s.store ∨
      ∃ dd, (stepLedger cond today s i).store = pruneKeep3 dd) ∧
    (∀ (saveOk : Bool) (today : String) (alerts : List Entry) (m : Manager),
      (markMultipleAsSent saveOk today alerts m).2.remote = m.remote ∨
      ∃ dd, (markMultipleAsSent saveOk today alerts m).2.remote = pruneKeep3 dd) ∧
    pruneKeep3 [("D1", [("AAA", "r1")]), ("D2", []), ("D3", []), ("D4", [])] =
      [("D4", []), ("D3", []), ("D2", [])] := by
  have hwriter : ∀ (cond : Bool) (today : String) (store : GistDoc) (ver : ℕ) (w : Writer),
      (stepWriter cond today store ver w).2 = none ∨
      ∃ dd, (stepWriter cond today store ver w).2 = some (pruneKeep3 dd) := by
    intro cond today store ver w
    cases hph : w.phase with
    | start => left; simp [stepWriter, hph]
    | reload k => left; simp [stepWriter, hph]
    | write k =>
        by_cases hc : (cond && w.seenVer != ver) = true
        · by_cases hk : k + 1 < 3
          · left; simp [stepWriter, hph, hc, hk]
          · left; simp [stepWriter, hph, hc, hk]
        · have hc2 : (cond && w.seenVer != ver) = false := Bool.eq_false_iff.mpr hc
          right
          exact ⟨w.data, by simp [stepWriter, hph, hc2]⟩
    | stopped b => left; simp [stepWriter, hph]
  refine ⟨?_, ?_, ?_, ?_, ?_, by decide⟩
  · intro d
    have : (pruneKeep3 d).length = ((sortKeysDesc (keysOf d)).take 3).length := by
      simp [pruneKeep3]
    rw [this]
    exact le_trans (List.length_take_le 3 _) (le_refl 3)
  · intro d kv hkv
    rcases List.mem_map.mp hkv with ⟨k, hk, rfl⟩
    exact ⟨(sortB_perm _ _).mem_iff.mp (List.mem_of_mem_take hk), rfl⟩
  · intro d k hk hknot j hj
    rw [keysOf_pruneKeep3] at hknot hj
    have hks : k ∈ sortKeysDesc (keysOf d) := mem_sortB.mpr hk
    have hkdrop : k ∈ (sortKeysDesc (keysOf d)).drop 3 := by
      have h2 := hks
      rw [← List.take_append_drop 3 (sortKeysDesc (keysOf d))] at h2
      rcases List.mem_append.mp h2 with h3 | h3
      · exact absurd h3 hknot
      · exact h3
    have hp : (sortKeysDesc (keysOf d)).Pairwise (fun x y => strLe y x = true) := by
      apply pairwise_sortB
      · intro x y
        exact strLe_total y x
      · intro x y z hab hbc
        exact strLe_trans hbc hab
    have hpa : ((sortKeysDesc (keysOf d)).take 3 ++
        (sortKeysDesc (keysOf d)).drop 3).Pairwise (fun x y => strLe y x = true) := by
      rw [List.take_append_drop]
      exact hp
    have hcross := (List.pairwise_append.mp hpa).2.2 j hj k hkdrop
    exact ⟨hcross, fun he => hknot (he ▸ hj)⟩
  · intro cond today s i
    cases i
    · rcases hwriter cond today s.store s.ver s.wB with h | ⟨dd, h⟩
      · left
        show (stepWriter cond today s.store s.ver s.wB).2.getD s.store = s.store
        rw [h]
        rfl
      · right
        refine ⟨dd, ?_⟩
        show (stepWriter cond today s.store s.ver s.wB).2.getD s.store = pruneKeep3 dd
        rw [h]
        rfl
    · rcases hwriter cond today s.store s.ver s.wA with h | ⟨dd, h⟩
      · left
        show (stepWriter cond today s.store s.ver s.wA).2.getD s.store = s.store
        rw [h]
        rfl
      · right
        refine ⟨dd, ?_⟩
        show (stepWriter cond today s.store s.ver s.wA).2.getD s.store = pruneKeep3 dd
        rw [h]
        rfl
  · intro saveOk today alerts m
    have hm : markMultipleAsSent saveOk today alerts m =
        (if alerts.isEmpty then (true, m)
         else if (alerts.filter (fun x =>
             !((getD (if hasKey m.remote today then m.remote
                 else setKey m.remote today []) today).contains x))).isEmpty then (true, m)
         else if saveOk then
           (true, ⟨pruneKeep3 (setKey (if hasKey m.remote today then m.remote
               else setKey m.remote today []) today
             (getD (if hasKey m.remote today then m.remote
                 else setKey m.remote today []) today ++
               alerts.filter (fun x =>
                 !((getD (if hasKey m.remote today then m.remote
                     else setKey m.remote today []) today).contains x)))),
             some (pruneKeep3 (setKey (if hasKey m.remote today then m.remote
                 else setKey m.remote today []) today
               (getD (if hasKey m.remote today then m.remote
                   else setKey m.remote today []) today ++
                 alerts.filter (fun x =>
                   !((getD (if hasKey m.remote today then m.remote
                       else setKey m.remote today []) today).contains x)))))⟩)
         else (false, { m with cache := some (setKey (if hasKey m.remote today then m.remote
               else setKey m.remote today []) today
             (getD (if hasKey m.remote today then m.remote
                 else setKey m.remote today []) today ++
               alerts.filter (fun x =>
                 !((getD (if hasKey m.remote today then m.remote
                     else setKey m.remote today []) today).contains x)))) })) := rfl
    rw [hm]
    by_cases h1 : alerts.isEmpty = true
    · rw [if_pos h1]
      left
      rfl
    · rw [if_neg h1]
      by_cases h2 : (alerts.filter (fun x =>
          !((getD (if hasKey m.remote today then m.remote
              else setKey m.remote today []) today).contains x))).isEmpty = true
      · rw [if_pos h2]
        left
        rfl
      · rw [if_neg h2]
        by_cases h3 : saveOk = true
        · rw [if_pos h3]
          right
          exact ⟨_, rfl⟩
        · rw [if_neg h3]
          left
          rfl

/-- C1 (counterexample): two writers A (adding `(AAA, r1)`) and B (adding
`(BBB, r1)`) commit disjoint entries for day D1 against the unconditional
gist PATCH the code actually performs (`conditional := false`).  Under the
interleaving load-A, load-B, write-A, write-B both writers' first attempts
return 200 and both report success, yet the final D1 partition is
`[(BBB, r1)]`: writer A's entry was overwritten and lost, refuting the
no-lost-update property. -/
theorem C1_counterexample :
    ((runLedger false "D1" (initLedger [("AAA", "r1")] [("BBB", "r1")])
        [true, false, true, false]).store = [("D1", [("BBB", "r1")])]) ∧
    (runLedger false "D1" (initLedger [("AAA", "r1")] [("BBB", "r1")])
        [true, false, true, false]).wA.phase = .stopped true ∧
    (runLedger false "D1" (initLedger [("AAA", "r1")] [("BBB", "r1")])
        [true, false, true, false]).wB.phase = .stopped true ∧
    ("AAA", "r1") ∉ getD (runLedger false "D1"
        (initLedger [("AAA", "r1")] [("BBB", "r1")]) [true, false, true, false]).store
        "D1" := by
  decide

/-- C1 (amended): against a store with true conditional writes
(`conditional := true`, the `put(key, content, expected_revision)` contract of
spec section 6, under which a write from a stale read is rejected with 409),
two writers with disjoint, duplicate-free, nonempty entry lists for the same
day, interleaved as load-A, load-B, write-A (success), write-B (409),
reload-merge-B, write-B (success), both complete successfully and the day's
partition contains exactly the union — A's entries followed by B's, no pair
duplicated, no update lost. -/
theorem C1_amended_conditional_store (today : String) (a b : List Entry)
    (hA : a ≠ []) (hB : b ≠ []) (hdisj : ∀ e ∈ b, e ∉ a)
    (hna : a.Nodup) (hnb : b.Nodup) :
    getD (runLedger true today (initLedger a b)
        [true, false, true, false, false, false]).store today = a ++ b ∧
    (runLedger true today (initLedger a b)
        [true, false, true, false, false, false]).wA.phase = .stopped true ∧
    (runLedger true today (initLedger a b)
        [true, false, true, false, false, false]).wB.phase = .stopped true ∧
    (a ++ b).Nodup := by
  have haE : a.isEmpty = false := by
    cases a with
    | nil => exact absurd rfl hA
    | cons x xs => rfl
  have hbE : b.isEmpty = false := by
    cases b with
    | nil => exact absurd rfl hB
    | cons x xs => rfl
  have h1 : stepLedger true today (initLedger a b) true =
      ⟨[], 0, ⟨a, .write 0, [(today, a)], 0⟩, ⟨b, .start, [], 0⟩⟩ := by
    simp [stepLedger, stepWriter, initLedger, markStart, haE, hasKey, getD,
      List.find?, setKey]
  have h2 : stepLedger true today
      (⟨[], 0, ⟨a, .write 0, [(today, a)], 0⟩, ⟨b, .start, [], 0⟩⟩ : LedgerState) false =
      ⟨[], 0, ⟨a, .write 0, [(today, a)], 0⟩, ⟨b, .write 0, [(today, b)], 0⟩⟩ := by
    simp [stepLedger, stepWriter, markStart, hbE, hasKey, getD, List.find?, setKey]
  have h3 : stepLedger true today
      (⟨[], 0, ⟨a, .write 0, [(today, a)], 0⟩, ⟨b, .write 0, [(today, b)], 0⟩⟩ :
        LedgerState) true =
      ⟨[(today, a)], 1, ⟨a, .stopped true, [(today, a)], 0⟩,
        ⟨b, .write 0, [(today, b)], 0⟩⟩ := by
    simp [stepLedger, stepWriter]
  have h4 : stepLedger true today
      (⟨[(today, a)], 1, ⟨a, .stopped true, [(today, a)], 0⟩,
        ⟨b, .write 0, [(today, b)], 0⟩⟩ : LedgerState) false =
      ⟨[(today, a)], 1, ⟨a, .stopped true, [(today, a)], 0⟩,
        ⟨b, .reload 1, [(today, b)], 0⟩⟩ := by
    simp [stepLedger, stepWriter]
  have h5 : stepLedger true today
      (⟨[(today, a)], 1, ⟨a, .stopped true, [(today, a)], 0⟩,
        ⟨b, .reload 1, [(today, b)], 0⟩⟩ : LedgerState) false =
      ⟨[(today, a)], 1, ⟨a, .stopped true, [(today, a)], 0⟩,
        ⟨b, .write 1, [(today, a ++ b)], 1⟩⟩ := by
    simp [stepLedger, stepWriter, mergeReload]
    intro x y hxy
    exact hdisj (x, y) hxy
  have h6 : stepLedger true today
      (⟨[(today, a)], 1, ⟨a, .stopped true, [(today, a)], 0⟩,
        ⟨b, .write 1, [(today, a ++ b)], 1⟩⟩ : LedgerState) false =
      ⟨[(today, a ++ b)], 2, ⟨a, .stopped true, [(today, a)], 0⟩,
        ⟨b, .stopped true, [(today, a ++ b)], 1⟩⟩ := by
    simp [stepLedger, stepWriter]
  have hrun : runLedger true today (initLedger a b)
      [true, false, true, false, false, false] =
      ⟨[(today, a ++ b)], 2, ⟨a, .stopped true, [(today, a)], 0⟩,
        ⟨b, .stopped true, [(today, a ++ b)], 1⟩⟩ := by
    show List.foldl (stepLedger true today) (initLedger a b)
      [true, false, true, false, false, false] = _
    rw [List.foldl_cons, h1, List.foldl_cons, h2, List.foldl_cons, h3,
      List.foldl_cons, h4, List.foldl_cons, h5, List.foldl_cons, h6]
    rfl
  rw [hrun]
  refine ⟨by simp, rfl, rfl, ?_⟩
  rw [List.nodup_append]
  exact ⟨hna, hnb, fun x hxa hxb => hdisj x hxb hxa⟩

theorem filter1Pred_specRow1 : filter1Pred 2 50 1 specRow1 = false := by
  have e0 : (Val.num (1.6 : ℚ)).gtQ 2 = false := by
    simp only [Val.gtQ, decide_eq_false_iff_not]
    norm_num
  unfold filter1Pred
  rw [show rget specRow1 "value_to_avg_monthly_value" = Val.num 1.6 from rfl, e0]
  rfl

theorem filter1Pred_specRow2 : filter1Pred 2 50 1 specRow2 = false := by
  have e0 : (Val.num (1.6 : ℚ)).gtQ 2 = false := by
    simp only [Val.gtQ, decide_eq_false_iff_not]
    norm_num
  unfold filter1Pred
  rw [show rget specRow2 "value_to_avg_monthly_value" = Val.num 1.6 from rfl, e0]
  rfl

/-- C5 (counterexample): the spec's scenario row (value ratio 1.6, per-capita
buy 60, buy power 1.2, 5-day figure 0.9) is NOT matched by
`filter_1_strong_buying_power` — the configured threshold is
`value_to_avg_monthly > 2.0`, not `> 1`, and the fourth condition is
`godrat_kharid > 2 * 5_day_godrat_kharid` (1.2 is not above 1.8), so the
filter's match set for the one-row table is empty; the 0.8 variant is
likewise excluded. -/
theorem C5_counterexample :
    filter1 ⟨specCols, [specRow1]⟩ = .ok ⟨specCols, []⟩ ∧
    filter1 ⟨specCols, [specRow2]⟩ = .ok ⟨specCols, []⟩ := by
  constructor
  · have hstep : filter1 ⟨specCols, [specRow1]⟩ =
        .ok ⟨specCols, sortRowsDesc "sarane_kharid"
          ([specRow1].filter (filter1Pred 2 50 1))⟩ := rfl
    rw [hstep, show ([specRow1].filter (filter1Pred 2 50 1)) = [] from by
      simp [filter1Pred_specRow1]]
    rfl
  · have hstep : filter1 ⟨specCols, [specRow2]⟩ =
        .ok ⟨specCols, sortRowsDesc "sarane_kharid"
          ([specRow2].filter (filter1Pred 2 50 1))⟩ := rfl
    rw [hstep, show ([specRow2].filter (filter1Pred 2 50 1)) = [] from by
      simp [filter1Pred_specRow2]]
    rfl

/-- C5 (amended): on any table carrying the four input columns, the
strong-buying rule's match set consists exactly of the rows satisfying its
predicate, and for numeric cells the predicate holds exactly when
`value_to_avg_monthly_value > 2`, `sarane_kharid > 50`, `godrat_kharid > 1`
and `godrat_kharid > 2 *` the 5-day `godrat_kharid` figure; in particular the
spec's scenario row and its 0.8 variant are both excluded. -/
theorem C5_amended_strong_buying :
    (∀ t : Table,
      "value_to_avg_monthly_value" ∈ t.cols → "sarane_kharid" ∈ t.cols →
      "godrat_kharid" ∈ t.cols → "5_day_godrat_kharid" ∈ t.cols → t.rows ≠ [] →
      filter1 t = .ok ⟨t.cols, sortRowsDesc "sarane_kharid"
        (t.rows.filter (filter1Pred 2 50 1))⟩ ∧
      ∀ r : Row, r ∈ sortRowsDesc "sarane_kharid" (t.rows.filter (filter1Pred 2 50 1)) ↔
        r ∈ t.rows ∧ filter1Pred 2 50 1 r = true) ∧
    (∀ (v s g g5 : ℚ) (r : Row),
      rget r "value_to_avg_monthly_value" = .num v →
      rget r "sarane_kharid" = .num s →
      rget r "godrat_kharid" = .num g →
      rget r "5_day_godrat_kharid" = .num g5 →
      (filter1Pred 2 50 1 r = true ↔ (2 < v ∧ 50 < s ∧ 1 < g ∧ 2 * g5 < g))) ∧
    filter1Pred 2 50 1 specRow1 = false ∧ filter1Pred 2 50 1 specRow2 = false := by
  refine ⟨?_, ?_, filter1Pred_specRow1, filter1Pred_specRow2⟩
  · intro t h1 h2 h3 h4 hne
    have hE : t.rows.isEmpty = false := by
      cases htr : t.rows with
      | nil => exact absurd htr hne
      | cons x xs => rfl
    have hc1 : colCheck t "value_to_avg_monthly_value" = .ok () := by
      simp [colCheck, h1]
    have hc2 : colCheck t "sarane_kharid" = .ok () := by simp [colCheck, h2]
    have hc3 : colCheck t "godrat_kharid" = .ok () := by simp [colCheck, h3]
    have hc4 : colCheck t "5_day_godrat_kharid" = .ok () := by simp [colCheck, h4]
    constructor
    · unfold filter1
      rw [hE]
      simp only [Bool.false_eq_true, if_false, hc1, hc2, hc3, hc4, except_bind_ok,
        show cfgGet STRONG_BUYING_CONFIG "min_value_to_avg_monthly" = .ok 2 from rfl,
        show cfgGet STRONG_BUYING_CONFIG "min_sarane_kharid" = .ok 50 from rfl,
        show cfgGet STRONG_BUYING_CONFIG "min_godrat_kharid" = .ok 1 from rfl]
      rfl
    · intro r
      unfold sortRowsDesc
      rw [mem_sortB, List.mem_filter]
  · intro v s g g5 r hv hs hg hg5
    unfold filter1Pred
    rw [hv, hs, hg, hg5]
    simp only [Val.gtQ, Val.gtV, Val.mulQ, Bool.and_eq_true, decide_eq_true_eq]
    constructor
    · rintro ⟨⟨⟨hA, hB⟩, hC⟩, hD⟩
      exact ⟨hA, hB, hC, hD⟩
    · rintro ⟨hA, hB, hC, hD⟩
      exact ⟨⟨⟨hA, hB⟩, hC⟩, hD⟩

/-- C6 (counterexample): on a nonempty first-API table that lacks the
`value_to_avg_monthly_value` column, `apply_all_filters` raises `KeyError`
from `filter_1_strong_buying_power` and aborts — no other rule evaluates and
no match sets are produced, refuting "does not raise" and "every other rule
still evaluates". -/
theorem C6_counterexample :
    applyAllFilters missingColsTable Table.empty 11 =
      .error "KeyError: value_to_avg_monthly_value" := rfl

/-- C6 (amended): only filter 10 guards its required input columns: when any
of them is missing from the second API's frame it returns the empty frame
instead of raising, recording the missing columns in the `missing_cols`
diagnostic; filters 1-9 access their columns unguarded, so a first-API table
lacking a required column (here `value_to_avg_monthly_value`) makes
`apply_all_filters` raise `KeyError` and no rule produces a match set. -/
theorem C6_amended_only_filter10_guarded :
    (∀ api2 api1 : Table, api2.rows ≠ [] → filter10MissingCols api2 ≠ [] →
      filter10 api2 api1 = .ok Table.empty ∧
      ∀ c ∈ filter10MissingCols api2, c ∈ filter10RequiredCols ∧ c ∉ api2.cols) ∧
    (∀ (api1 api2 : Table) (hr : ℕ), api1.rows ≠ [] →
      "value_to_avg_monthly_value" ∉ api1.cols →
      applyAllFilters api1 api2 hr = .error "KeyError: value_to_avg_monthly_value") := by
  constructor
  · intro api2 api1 hne hmiss
    have hE : api2.rows.isEmpty = false := by
      cases htr : api2.rows with
      | nil => exact absurd htr hne
      | cons x xs => rfl
    have hM : (filter10MissingCols api2).isEmpty = false := by
      cases htr : filter10MissingCols api2 with
      | nil => exact absurd htr hmiss
      | cons x xs => rfl
    constructor
    · unfold filter10
      rw [hE]
      simp only [Bool.false_eq_true, if_false, except_bind_ok,
        show cfgGet HEAVY_BUY_QUEUE_CONFIG "min_buy_order" = .ok 70 from rfl,
        show cfgGet HEAVY_BUY_QUEUE_CONFIG "min_buy_queue_value" = .ok 10 from rfl,
        hM, Bool.not_false, if_true]
      rfl
    · intro c hc
      have := List.mem_filter.mp hc
      refine ⟨this.1, ?_⟩
      have h2 := this.2
      simp only [Bool.not_eq_true'] at h2
      intro hmem
      have h3 : api2.cols.contains c = true := List.elem_iff.mpr hmem
      rw [h3] at h2
      exact absurd h2 (by simp)
  · intro api1 api2 hr hne hnotin
    have hE : api1.rows.isEmpty = false := by
      cases htr : api1.rows with
      | nil => exact absurd htr hne
      | cons x xs => rfl
    have hf1 : filter1 api1 = .error "KeyError: value_to_avg_monthly_value" := by
      unfold filter1
      rw [hE]
      have hcc : colCheck api1 "value_to_avg_monthly_value" =
          .error "KeyError: value_to_avg_monthly_value" := by
        simp only [colCheck]
        rw [if_neg]
        · rfl
        · simp [List.elem_iff, hnotin]
      simp only [Bool.false_eq_true, if_false, hcc, except_bind_error]
    unfold applyAllFilters
    rw [hE]
    simp only [Bool.false_eq_true, if_false, hf1, except_bind_error]

/-! Concrete instantiations of the claim theorems. -/

/-- Witness for C1: the amended theorem at the spec's concrete scenario
(writer A adds `(AAA, r1)`, writer B adds `(BBB, r1)`, day D1). -/
theorem C1_amended_witness :
    getD (runLedger true "D1" (initLedger [("AAA", "r1")] [("BBB", "r1")])
        [true, false, true, false, false, false]).store "D1" =
      [("AAA", "r1"), ("BBB", "r1")] ∧
    (runLedger true "D1" (initLedger [("AAA", "r1")] [("BBB", "r1")])
        [true, false, true, false, false, false]).wA.phase = .stopped true ∧
    (runLedger true "D1" (initLedger [("AAA", "r1")] [("BBB", "r1")])
        [true, false, true, false, false, false]).wB.phase = .stopped true ∧
    ([(("AAA" : String), ("r1" : String)), ("BBB", "r1")]).Nodup :=
  C1_amended_conditional_store "D1" [("AAA", "r1")] [("BBB", "r1")]
    (by decide) (by decide) (by decide) (by decide) (by decide)

/-- Witness for C2: the amended theorem at a two-batch input with one failed
send. -/
theorem C2_amended_witness :
    (commitCalls [(⟨["CCC"], "f2"⟩, .sentOk), (⟨["DDD"], "f2"⟩, .sendFailed)]).length ≤ 1 :=
  (C2_amended_aggregated_commit
    [(⟨["CCC"], "f2"⟩, .sentOk), (⟨["DDD"], "f2"⟩, .sendFailed)]).1

/-- Witness for C3: the retention bound at a five-partition document. -/
theorem C3_retention_witness :
    (pruneKeep3 [("D1", []), ("D2", []), ("D3", []), ("D4", []), ("D5", [])]).length ≤ 3 :=
  C3_retention_bound.1 [("D1", []), ("D2", []), ("D3", []), ("D4", []), ("D5", [])]

/-- Witness for C4: the lifecycle theorem at a concrete manager whose remote
holds one empty partition for day D1 and a commit of `(AAA, f1)`. -/
theorem C4_dedup_witness :
    (markMultipleAsSent true "D1" [("AAA", "f1")]
        ⟨[("D1", [])], some [("D1", [])]⟩).1 = true ∧
    (shouldSendAlert none "D1" "AAA" "f1"
        (markMultipleAsSent true "D1" [("AAA", "f1")]
          ⟨[("D1", [])], some [("D1", [])]⟩).2).1 = false :=
  ⟨(C4_dedup_check_lifecycle [("D1", [])] "D1" "AAA" "f1" [("AAA", "f1")] none none
      (by decide) (by decide) (by decide)).2.2.2.1,
   (C4_dedup_check_lifecycle [("D1", [])] "D1" "AAA" "f1" [("AAA", "f1")] none none
      (by decide) (by decide) (by decide)).2.2.2.2⟩

/-- Witness for C5: the amended theorem at the two-row scenario table. -/
theorem C5_amended_witness :
    filter1 ⟨specCols, [specRow1, specRow2]⟩ =
      .ok ⟨specCols, sortRowsDesc "sarane_kharid"
        ([specRow1, specRow2].filter (filter1Pred 2 50 1))⟩ :=
  (C5_amended_strong_buying.1 ⟨specCols, [specRow1, specRow2]⟩
    (by decide) (by decide) (by decide) (by decide) (by decide)).1

/-- Witness for C6: the amended theorem at a second-API frame missing three of
the four required columns. -/
theorem C6_amended_witness :
    filter10 ⟨["last_price"], [[("last_price", Val.num 100)]]⟩ Table.empty =
      .ok Table.empty ∧
    ∀ c ∈ filter10MissingCols ⟨["last_price"], [[("last_price", Val.num 100)]]⟩,
      c ∈ filter10RequiredCols ∧
      c ∉ (⟨["last_price"], [[("last_price", Val.num 100)]]⟩ : Table).cols :=
  C6_amended_only_filter10_guarded.1 ⟨["last_price"], [[("last_price", Val.num 100)]]⟩
    Table.empty (by decide) (by decide)

/-- Witness for C7: the retry theorem at a 30-second rate-limit signal whose
retry fails. -/
theorem C7_rate_limit_witness :
    (sendMessage (.retryAfterExc 30) .otherExc).attempts = 2 ∧
    (sendMessage (.retryAfterExc 30) .otherExc).sleeps = [30] ∧
    ((sendMessage (.retryAfterExc 30) .otherExc).result = true ↔
      TgOutcome.otherExc = .success) :=
  C7_rate_limit_retry 30 .otherExc

/-- Witness for C8: the amended theorem at numerator 30 and raw denominator
50000000000. -/
theorem C8_amended_witness :
    cleanRatio (Val.num 30) (Val.num 50000000000) =
      Val.num (if (50000000000 : ℚ) = 0 then 0 else 30 / 50000000000) :=
  C8_amended_safe_division 30 (Val.num 50000000000)

/-- Witness for C9: the amended theorem at a single 13:00 invocation. -/
theorem C9_amended_witness :
    (dailySummaryDispatches ([] ++ [(13, 0)]) =
      dailySummaryDispatches [] + (if 12 < 13 ∨ (13 = 12 ∧ 30 ≤ 0) then 1 else 0)) ∧
    (dailySummaryRuns 13 0 = true ↔ (12 < 13 ∨ (13 = 12 ∧ 30 ≤ 0))) :=
  C9_amended_time_gate_only [] 13 0

/-- Witness for C10: the fail-open theorem at a concrete pair and day. -/
theorem C10_fail_open_witness :
    (shouldSendAlert none "D1" "AAA" "f1" ⟨[("D1", [("AAA", "f1")])], none⟩).1 = true ∧
    (shouldSendAlert none "D1" "AAA" "f1"
        ⟨[("D1", [("AAA", "f1")])], none⟩).2.cache = some [] :=
  C10_fail_open_dedup "D1" "AAA" "f1" [("D1", [("AAA", "f1")])]

end BourseTracker
